import Mathlib

/-!
Shallow embedding of the time-tracking terminal utility (src/main.rs).

Modelling conventions:
* `chrono::DateTime<Utc>` instants are modelled as `Int` (seconds since the
  epoch); `chrono::Duration` as `Int` seconds (the source only ever inspects
  `num_seconds()`).
* The wall clock (`Utc::now()`) is passed explicitly as a `now : Int`
  parameter; the handlers in `main.rs` call `Utc::now()` several times within
  one event, always denoting the same instant up to sub-second noise.
* Code paths that panic in Rust (out-of-bounds `Vec` indexing, `usize`
  subtraction underflow) are modelled by returning `none`.
* The JSON store is modelled in two layers, mirroring serde_json: a textual
  layer (`parseJson`, a fuel-based parser over the characters of the file)
  and a value layer (`Json`), with the derived `Serialize`/`Deserialize`
  instances of `Task`/`TimeFrame` embedded as total functions between the
  record types and `Json`.
-/

namespace TimeTracking

/-- `struct TimeFrame` (src/main.rs lines 38-43): a closed timer interval. -/
structure TimeFrame where
  id : Nat
  start_time : Int
  end_time : Int
deriving DecidableEq

/-- `struct Task` (src/main.rs lines 29-36): a tracked project. -/
structure Task where
  id : Nat
  project : String
  created_at : Int
  running_since : Option Int
  times : List TimeFrame
deriving DecidableEq

/-- `Task::is_running` (lines 46-48). -/
def Task.is_running (t : Task) : Bool :=
  t.running_since.isSome

/-- `Task::current_duration` (lines 50-56): `Utc::now() - running_since` when
running, `Duration::zero()` otherwise.  The subtraction is signed; nothing in
the source clamps or checks the sign. -/
def Task.current_duration (t : Task) (now : Int) : Int :=
  match t.running_since with
  | some running_since => now - running_since
  | none => 0

/-- `Task::total_duration` (lines 58-64): fold of the closed frames' lengths
in whole seconds plus the current open duration. -/
def Task.total_duration (t : Task) (now : Int) : Int :=
  (t.times.foldl (fun acc time_frame => acc + (time_frame.end_time - time_frame.start_time)) 0)
    + t.current_duration now

/-- The body of the toggle handler's closing loop (lines 300-315): a running
task is closed (clear `running_since`, append a `TimeFrame` with
`id = times.len()` before the push, `start_time = running_since`,
`end_time = now`); a non-running task is left alone. -/
def closeTask (now : Int) (task : Task) : Task :=
  match task.running_since with
  | some running_since =>
      { task with
        running_since := none,
        times := task.times ++
          [{ id := task.times.length, start_time := running_since, end_time := now }] }
  | none => task

/-- Setting `running_since := some now` on the element at the given index
(lines 317-321, `tasks.get_mut(selected)`); out-of-range indices leave the
list unchanged (unreachable there: the index was already checked by the
initial `tasks[selected]`). -/
def setRunningSince (now : Int) : List Task → Nat → List Task
  | [], _ => []
  | t :: ts, 0 => { t with running_since := some now } :: ts
  | t :: ts, Nat.succ n => t :: setRunningSince now ts n

/-- The toggle handler (lines 296-322) as a collection transformer.  The
handler first evaluates `tasks[selected].is_running()`, which panics when
`selected` is out of range (modelled as `none`; the panic aborts `update_db`
before any write, so no new collection state arises).  Otherwise it closes
every running task and, when the selected task was not running, starts it. -/
def toggle (tasks : List Task) (selected : Nat) (now : Int) : Option (List Task) :=
  match tasks[selected]? with
  | none => none
  | some selected_task =>
    if selected_task.is_running then
      some (tasks.map (closeTask now))
    else
      some (setRunningSince now (tasks.map (closeTask now)) selected)

/-- The CreateProject submit handler (lines 358-367): push a new task with
`id = tasks.len()`, the buffered name, no frames, not running. -/
def createTask (tasks : List Task) (input : String) (now : Int) : List Task :=
  tasks ++ [{ id := tasks.length, project := input, created_at := now,
              running_since := none, times := [] }]

/-- The DeleteProject confirm handler (lines 386-391): `tasks.remove(selected)`.
`Vec::remove` panics when the index is out of range; the `Step` relation below
therefore only admits in-range deletions. -/
def deleteTask (tasks : List Task) (selected : Nat) : List Task :=
  tasks.eraseIdx selected

/-- Number of tasks whose timer is currently running. -/
def countRunning (tasks : List Task) : Nat :=
  List.countP (fun t => t.is_running) tasks

/-- The single-running-timer invariant of §3 of the spec. -/
def atMostOneRunning (tasks : List Task) : Prop :=
  countRunning tasks ≤ 1

/-- One mutation of the persisted collection, as performed by the three
mutating handlers of the main loop. -/
inductive Step : List Task → List Task → Prop
  | create (tasks : List Task) (input : String) (now : Int) :
      Step tasks (createTask tasks input now)
  | delete (tasks : List Task) (selected : Nat) (h : selected < tasks.length) :
      Step tasks (deleteTask tasks selected)
  | toggle (tasks : List Task) (selected : Nat) (now : Int) (tasks' : List Task)
      (h : toggle tasks selected now = some tasks') :
      Step tasks tasks'

/-- Collection states reachable from the empty store. -/
def Reachable (tasks : List Task) : Prop :=
  Relation.ReflTransGen Step [] tasks

theorem closeTask_running_since (now : Int) (t : Task) :
    (closeTask now t).running_since = none := by
  cases h : t.running_since <;> simp [closeTask, h]

theorem closeTask_of_not_running (now : Int) (t : Task) (h : t.running_since = none) :
    closeTask now t = t := by
  simp [closeTask, h]

theorem closeTask_of_running (now : Int) (t : Task) (r : Int) (h : t.running_since = some r) :
    closeTask now t =
      { t with running_since := none,
               times := t.times ++ [{ id := t.times.length, start_time := r, end_time := now }] } := by
  simp [closeTask, h]

theorem countRunning_map_closeTask (now : Int) (tasks : List Task) :
    countRunning (tasks.map (closeTask now)) = 0 := by
  rw [countRunning, List.countP_eq_zero]
  intro a ha
  rcases List.mem_map.mp ha with ⟨t, _, rfl⟩
  simp [Task.is_running, closeTask_running_since]

theorem countRunning_cons (t : Task) (ts : List Task) :
    countRunning (t :: ts) = countRunning ts + (if t.is_running then 1 else 0) := by
  rw [countRunning, List.countP_cons, countRunning]

theorem countRunning_setRunningSince_le (now : Int) (l : List Task) (n : Nat) :
    countRunning (setRunningSince now l n) ≤ countRunning l + 1 := by
  induction l generalizing n with
  | nil => simp [setRunningSince, countRunning]
  | cons t ts ih =>
    cases n with
    | zero =>
      show countRunning ({ t with running_since := some now } :: ts) ≤ countRunning (t :: ts) + 1
      rw [countRunning_cons, countRunning_cons]
      have hone : (Task.is_running { t with running_since := some now }) = true := rfl
      rw [hone]
      simp
    | succ m =>
      show countRunning (t :: setRunningSince now ts m) ≤ countRunning (t :: ts) + 1
      rw [countRunning_cons, countRunning_cons]
      have := ih m
      omega

theorem toggle_some_countRunning_le {tasks tasks' : List Task} {selected : Nat} {now : Int}
    (h : toggle tasks selected now = some tasks') : countRunning tasks' ≤ 1 := by
  cases hg : tasks[selected]? with
  | none => simp [toggle, hg] at h
  | some t =>
    simp only [toggle, hg] at h
    by_cases hr : t.is_running
    · rw [if_pos hr] at h
      injection h with h
      rw [← h, countRunning_map_closeTask]
      omega
    · rw [if_neg hr] at h
      injection h with h
      have h1 := countRunning_setRunningSince_le now (tasks.map (closeTask now)) selected
      rw [countRunning_map_closeTask, h] at h1
      omega

theorem step_atMostOneRunning {s s' : List Task} (h : Step s s')
    (hs : atMostOneRunning s) : atMostOneRunning s' := by
  cases h with
  | create input now =>
    rw [atMostOneRunning, countRunning, createTask, List.countP_append]
    have hz : List.countP (fun t => t.is_running)
        [({ id := s.length, project := input, created_at := now,
            running_since := none, times := [] } : Task)] = 0 := rfl
    rw [hz]
    rw [atMostOneRunning, countRunning] at hs
    omega
  | delete selected hlt =>
    have hsub : List.countP (fun t => t.is_running) (s.eraseIdx selected) ≤
        List.countP (fun t => t.is_running) s :=
      List.Sublist.countP_le (fun t => t.is_running) (List.eraseIdx_sublist s selected)
    rw [atMostOneRunning, countRunning, deleteTask]
    rw [atMostOneRunning, countRunning] at hs
    omega
  | toggle selected now tasks' heq =>
    exact toggle_some_countRunning_le heq

theorem setRunningSince_getElem_ne (now : Int) (l : List Task) (n i : Nat) (h : i ≠ n) :
    (setRunningSince now l n)[i]? = l[i]? := by
  induction l generalizing n i with
  | nil => rfl
  | cons t ts ih =>
    cases n with
    | zero =>
      cases i with
      | zero => exact absurd rfl h
      | succ j => simp [setRunningSince]
    | succ m =>
      cases i with
      | zero => simp [setRunningSince]
      | succ j =>
        simp only [setRunningSince, List.getElem?_cons_succ]
        exact ih m j (fun hj => h (congrArg Nat.succ hj))

theorem setRunningSince_getElem_self (now : Int) (l : List Task) (n : Nat) :
    (setRunningSince now l n)[n]? =
      l[n]?.map (fun t => { t with running_since := some now }) := by
  induction l generalizing n with
  | nil => rfl
  | cons t ts ih =>
    cases n with
    | zero => simp [setRunningSince]
    | succ m =>
      simp only [setRunningSince, List.getElem?_cons_succ]
      exact ih m

theorem toggle_some_others_not_running {tasks tasks' : List Task} {selected : Nat} {now : Int}
    (h : toggle tasks selected now = some tasks') :
    ∀ i t, tasks'[i]? = some t → i ≠ selected → t.running_since = none := by
  intro i t hi hne
  cases hg : tasks[selected]? with
  | none => simp [toggle, hg] at h
  | some sel_task =>
    simp only [toggle, hg] at h
    have hmap : ∀ u : Task, (tasks.map (closeTask now))[i]? = some u → u.running_since = none := by
      intro u hu
      rw [List.getElem?_map] at hu
      cases hg2 : tasks[i]? with
      | none => rw [hg2] at hu; exact Option.noConfusion hu
      | some t0 =>
        rw [hg2] at hu
        injection hu with hu
        rw [← hu]
        exact closeTask_running_since now t0
    by_cases hr : sel_task.is_running
    · rw [if_pos hr] at h
      injection h with h
      rw [← h] at hi
      exact hmap t hi
    · rw [if_neg hr] at h
      injection h with h
      rw [← h] at hi
      rw [setRunningSince_getElem_ne now _ selected i hne] at hi
      exact hmap t hi

/-- C10: toggle at a valid index closes every running task, whatever the
starting state: it establishes the single-running-timer invariant from
arbitrary collections (including ones where several tasks run at once),
rather than merely preserving it, and afterwards only the selected index can
be running. -/
theorem toggle_establishes_single_running (tasks tasks' : List Task) (selected : Nat) (now : Int)
    (h : toggle tasks selected now = some tasks') :
    countRunning tasks' ≤ 1 ∧
      (∀ i t, tasks'[i]? = some t → i ≠ selected → t.running_since = none) :=
  ⟨toggle_some_countRunning_le h, toggle_some_others_not_running h⟩

/-- Witness for C10: starting from a corrupted state with two running tasks,
toggle at index 0 leaves at most one running. -/
theorem toggle_establishes_single_running_witness :
    countRunning [⟨0, "a", 0, none, [⟨0, 1, 5⟩]⟩, ⟨1, "b", 0, none, [⟨0, 2, 5⟩]⟩] ≤ 1 :=
  (toggle_establishes_single_running
    [⟨0, "a", 0, some 1, []⟩, ⟨1, "b", 0, some 2, []⟩]
    [⟨0, "a", 0, none, [⟨0, 1, 5⟩]⟩, ⟨1, "b", 0, none, [⟨0, 2, 5⟩]⟩]
    0 5 (by decide)).1

/-- C1: every collection state reachable from the empty store by create-task,
delete-task and toggle operations has at most one task with `running_since`
set. -/
theorem reachable_at_most_one_running (tasks : List Task) (h : Reachable tasks) :
    atMostOneRunning tasks := by
  rw [Reachable] at h
  induction h with
  | refl => rw [atMostOneRunning]; decide
  | tail hab hbc ih => exact step_atMostOneRunning hbc ih

/-- Witness for C1: the state obtained by one create step from the empty
store is reachable and satisfies the invariant. -/
theorem reachable_at_most_one_running_witness :
    atMostOneRunning (createTask [] "alpha" 0) :=
  reachable_at_most_one_running (createTask [] "alpha" 0)
    (Relation.ReflTransGen.tail Relation.ReflTransGen.refl (Step.create [] "alpha" 0))

/-- C2: with task A (at index a) running since `ra`, task B (at a different
index b) not running, and no other task running, toggle at b closes A by
appending exactly one TimeFrame whose id is the previous length of A's
`times`, whose start_time is A's old `running_since` and whose end_time is
now; sets B running since now; and leaves every other index unchanged. -/
theorem toggle_exclusivity (tasks : List Task) (a b : Nat) (now : Int) (A B : Task) (ra : Int)
    (ha : tasks[a]? = some A) (hb : tasks[b]? = some B) (hab : a ≠ b)
    (hA : A.running_since = some ra) (hB : B.running_since = none)
    (hothers : ∀ i t, tasks[i]? = some t → i ≠ a → t.running_since = none) :
    ∃ tasks', toggle tasks b now = some tasks' ∧
      tasks'[a]? = some { A with
                          running_since := none,
                          times := A.times ++
                            [{ id := A.times.length, start_time := ra, end_time := now }] } ∧
      tasks'[b]? = some { B with running_since := some now } ∧
      ∀ i, i ≠ a → i ≠ b → tasks'[i]? = tasks[i]? := by
  have hBrun : B.is_running = false := by simp [Task.is_running, hB]
  refine ⟨setRunningSince now (tasks.map (closeTask now)) b, ?_, ?_, ?_, ?_⟩
  · simp [toggle, hb, hBrun]
  · rw [setRunningSince_getElem_ne now _ b a hab, List.getElem?_map, ha,
        Option.map_some', closeTask_of_running now A ra hA]
  · rw [setRunningSince_getElem_self, List.getElem?_map, hb, Option.map_some',
        closeTask_of_not_running now B hB]
    rfl
  · intro i hia hib
    rw [setRunningSince_getElem_ne now _ b i hib, List.getElem?_map]
    cases hgi : tasks[i]? with
    | none => rfl
    | some t => rw [Option.map_some', closeTask_of_not_running now t (hothers i t hgi hia)]

/-- Witness for C2 at a concrete three-task collection: task 0 is running,
toggling task 1 closes task 0, starts task 1 and leaves task 2 untouched. -/
theorem toggle_exclusivity_witness :
    toggle [⟨0, "a", 0, some 3, []⟩, ⟨1, "b", 0, none, []⟩,
            ⟨2, "c", 0, none, [⟨0, 1, 2⟩]⟩] 1 10 =
      some [⟨0, "a", 0, none, [⟨0, 3, 10⟩]⟩, ⟨1, "b", 0, some 10, []⟩,
            ⟨2, "c", 0, none, [⟨0, 1, 2⟩]⟩] := by
  have hoth : ∀ i t, ([⟨0, "a", 0, some 3, []⟩, ⟨1, "b", 0, none, []⟩,
      ⟨2, "c", 0, none, [⟨0, 1, 2⟩]⟩] : List Task)[i]? = some t → i ≠ 0 →
      t.running_since = none := by
    intro i t hgi hia
    obtain _ | _ | _ | j := i
    · exact absurd rfl hia
    · simp at hgi; subst hgi; rfl
    · simp at hgi; subst hgi; rfl
    · simp at hgi
  obtain ⟨tasks', h1, h2, h3, h4⟩ :=
    toggle_exclusivity
      [⟨0, "a", 0, some 3, []⟩, ⟨1, "b", 0, none, []⟩, ⟨2, "c", 0, none, [⟨0, 1, 2⟩]⟩]
      0 1 10 ⟨0, "a", 0, some 3, []⟩ ⟨1, "b", 0, none, []⟩ 3
      (by decide) (by decide) (by decide) rfl rfl hoth
  have hlist : tasks' = [⟨0, "a", 0, none, [⟨0, 3, 10⟩]⟩, ⟨1, "b", 0, some 10, []⟩,
      ⟨2, "c", 0, none, [⟨0, 1, 2⟩]⟩] := by
    apply List.ext_getElem?
    intro n
    obtain _ | _ | _ | j := n
    · rw [h2]; decide
    · rw [h3]; decide
    · rw [h4 2 (by decide) (by decide)]; decide
    · rw [h4 (j + 3) (by omega) (by omega)]; simp
  rw [hlist] at h1
  exact h1

/-- `enum State` (lines 84-89): the four mutually exclusive UI states. -/
inductive State
  | Projects
  | Help
  | CreateProject (input : String)
  | DeleteProject
deriving DecidableEq

/-- `enum Transitions` (lines 91-97): the state-machine input events. -/
inductive Transitions
  | CreateNew
  | Delete
  | Escape
  | ShowHelp
  | InputCharacter (c : Char)

/-- `App::transition` (lines 100-134).  The `(CreateProject, Delete)` arm
slices `input[0..input.len() - 1]`: on an empty buffer `input.len() - 1`
underflows `usize` and the program panics (modelled as `none`).  The source
slices bytes; at the character level modelled here the nonempty case drops
the final character.  The catch-all arm leaves the state unchanged. -/
def transition : State → Transitions → Option State
  | State.Projects, Transitions.CreateNew => some (State.CreateProject "")
  | State.Projects, Transitions.Delete => some State.DeleteProject
  | State.Projects, Transitions.ShowHelp => some State.Help
  | State.Help, Transitions.Escape => some State.Projects
  | State.CreateProject input, Transitions.InputCharacter c =>
      some (State.CreateProject (input.push c))
  | State.CreateProject input, Transitions.Delete =>
      if input.isEmpty then none
      else some (State.CreateProject (String.mk input.toList.dropLast))
  | State.CreateProject _, Transitions.Escape => some State.Projects
  | State.DeleteProject, Transitions.Escape => some State.Projects
  | s, _ => some s

/-- C4: Backspace on a nonempty CreateProject buffer drops the last
character, but on the empty buffer the `input[0..input.len() - 1]` slice
underflows `usize` and panics (`none`) instead of the claimed no-op. -/
theorem backspace_empty_input_underflow :
    transition (State.CreateProject "") Transitions.Delete = none ∧
    transition (State.CreateProject "ab") Transitions.Delete =
      some (State.CreateProject "a") := by
  decide

/-- The Down/j selection handler (lines 275-284).  The branch condition
evaluates `amount_tasks - 1`, which underflows `usize` when the task list is
empty (debug-build panic; release builds wrap and select an invalid row);
modelled as `none`. -/
def moveSelectionDown (selected amount_tasks : Nat) : Option Nat :=
  if amount_tasks = 0 then none
  else if selected ≥ amount_tasks - 1 then some 0
  else some (selected + 1)

/-- The Up/k selection handler (lines 285-294); its `else` branch computes
`amount_tasks - 1`, underflowing in the same way on an empty list. -/
def moveSelectionUp (selected amount_tasks : Nat) : Option Nat :=
  if selected > 0 then some (selected - 1)
  else if amount_tasks = 0 then none
  else some (amount_tasks - 1)

/-- C5: wraparound holds for a nonempty list (down from index K-1 wraps to 0,
up from 0 wraps to K-1, here for K = 3), but with K = 0 both handlers
evaluate `amount_tasks - 1` on `usize` zero and panic instead of leaving the
selection unchanged. -/
theorem selection_move_empty_list_underflow :
    moveSelectionDown 2 3 = some 0 ∧ moveSelectionUp 0 3 = some 2 ∧
    moveSelectionDown 0 0 = none ∧ moveSelectionUp 0 0 = none := by
  decide

/-- C6 counterexample: with `running_since` in the future (clock skew),
`current_duration` silently returns a negative duration: no clamping, no
error, contradicting the claim that the result is never negative and that
skew is treated as a fatal logic error. -/
theorem current_duration_negative_counterexample :
    Task.current_duration ⟨0, "p", 0, some 5, []⟩ 0 = -5 ∧ (-5 : Int) < 0 := by
  decide

/-- C6 amended: `current_duration` returns `now - running_since` when running
and zero otherwise; the result is nonnegative whenever `running_since ≤ now`,
while a future `running_since` silently yields a negative value. -/
theorem current_duration_amended (t : Task) (now : Int) :
    (∀ r, t.running_since = some r → t.current_duration now = now - r) ∧
    (t.running_since = none → t.current_duration now = 0) ∧
    (∀ r, t.running_since = some r → r ≤ now → 0 ≤ t.current_duration now) := by
  refine ⟨?_, ?_, ?_⟩
  · intro r hr
    simp [Task.current_duration, hr]
  · intro hr
    simp [Task.current_duration, hr]
  · intro r hr hle
    simp [Task.current_duration, hr]
    omega

/-- Witness for the amended C6 at concrete tasks. -/
theorem current_duration_amended_witness :
    Task.current_duration ⟨0, "p", 0, some 2, []⟩ 10 = 10 - 2 ∧
    Task.current_duration ⟨1, "q", 0, none, []⟩ 10 = 0 ∧
    0 ≤ Task.current_duration ⟨0, "p", 0, some 2, []⟩ 10 :=
  ⟨(current_duration_amended ⟨0, "p", 0, some 2, []⟩ 10).1 2 rfl,
   (current_duration_amended ⟨1, "q", 0, none, []⟩ 10).2.1 rfl,
   (current_duration_amended ⟨0, "p", 0, some 2, []⟩ 10).2.2 2 rfl (by decide)⟩

/-- Ceiling division: `ceilDiv a b = ⌈a / b⌉` for positive `b`.  The source
computes `((num_seconds as f64) / 60.0 / 15.0).ceil()`; for every magnitude a
time tracker can encounter (far below 2^52 seconds) the f64 computation is
this exact ceiling. -/
def ceilDiv (a b : Int) : Int := -((-a).fdiv b)

/-- Rust's `{:0>2}` format specifier: left-pad with zeros to width two. -/
def pad2 (n : Int) : String :=
  let s := toString n
  if s.length < 2 then String.mk (List.replicate (2 - s.length) '0') ++ s else s

/-- `format_duration_report` (lines 557-563): total minutes rounded up to the
next 15-minute step, then `minutes = total_minutes % 60` and
`hours = (total_minutes / 60) / 60` (sic: `total_minutes` is already in
minutes, so this divides by 3600).  Rust `i64` division and remainder
truncate toward zero, hence `Int.tdiv`/`Int.tmod`. -/
def format_duration_report (num_seconds : Int) : String :=
  let total_minutes := ceilDiv num_seconds 900 * 15
  let minutes := Int.tmod total_minutes 60
  let hours := Int.tdiv (Int.tdiv total_minutes 60) 60
  pad2 hours ++ ":" ++ pad2 minutes

/-- C3: the four sub-hour examples of the claim hold, but the hours field is
computed as `(total_minutes / 60) / 60`, so a duration of exactly one hour
(3600 seconds) formats as "00:00" where HH:MM ceiling rounding requires
"01:00". -/
theorem format_duration_report_hour_bug :
    format_duration_report (7 * 60) = "00:15" ∧
    format_duration_report (15 * 60) = "00:15" ∧
    format_duration_report (16 * 60) = "00:30" ∧
    format_duration_report 0 = "00:00" ∧
    format_duration_report 3600 = "00:00" := by
  decide

/-- C8: toggling at an index holding no task: the handler's first statement
indexes `tasks[selected]`, which panics (modelled `none`) — the source's
`Error` enum has no `IndexOutOfRange` variant and the handler has no bounds
check, so there is neither a no-op nor a structured error.  The store itself
is not mutated: the panic aborts `update_db` before its write. -/
theorem toggle_out_of_range_panics :
    toggle [] 0 0 = none ∧
    toggle [⟨0, "p", 0, none, []⟩] 1 0 = none := by
  decide

/-- serde_json's data model (`serde_json::Value`), restricted to what the
store uses.  chrono serializes a `DateTime<Utc>` as an RFC3339 string — an
injective textual encoding of the instant with an exact inverse; since the
claims under study concern the struct/field/collection structure and not date
formatting, that leaf codec is modelled by carrying the instant itself in a
numeric leaf.  JSON floats and string escapes are likewise unused by the
store's own output and are not modelled. -/
inductive Json where
  | null
  | bool (b : Bool)
  | num (n : Int)
  | str (s : String)
  | arr (items : List Json)
  | obj (fields : List (String × Json))

def quoteChar : Char := Char.ofNat 34

def lbraceChar : Char := Char.ofNat 123

def rbraceChar : Char := Char.ofNat 125

def isWs (c : Char) : Bool :=
  c == ' ' || c == '\n' || c == '\t' || c == '\r'

def skipWs : List Char → List Char
  | [] => []
  | c :: rest => if isWs c then skipWs rest else c :: rest

/-- Scan a JSON string body up to the closing quote (escapes unused by the
store are not modelled). -/
def parseStringChars : List Char → Option (List Char × List Char)
  | [] => none
  | c :: rest =>
    if c = quoteChar then some ([], rest)
    else
      match parseStringChars rest with
      | some (s, r) => some (c :: s, r)
      | none => none

def parseDigits : List Char → List Char × List Char
  | [] => ([], [])
  | c :: rest =>
    if c.isDigit then
      match parseDigits rest with
      | (ds, r) => (c :: ds, r)
    else ([], c :: rest)

def digitsVal (ds : List Char) : Nat :=
  ds.foldl (fun acc c => acc * 10 + (c.toNat - 48)) 0

/-- The serde_json recursive-descent parser, embedded as a fuel-indexed
triple of mutually recursive parsers (value, array items after the opening
bracket, object fields after the opening brace).  Recursion is structural on
the fuel so that the kernel can evaluate the parser on concrete inputs. -/
def parsers (fuel : Nat) :
    (List Char → Option (Json × List Char)) ×
    (List Char → Option (List Json × List Char)) ×
    (List Char → Option (List (String × Json) × List Char)) :=
  match fuel with
  | 0 => (fun _ => none, fun _ => none, fun _ => none)
  | Nat.succ fuel =>
    let pV := (parsers fuel).1
    let pI := (parsers fuel).2.1
    let pF := (parsers fuel).2.2
    ( fun input =>
        match skipWs input with
        | [] => none
        | c :: rest =>
          if c = 'n' then
            match rest with
            | 'u' :: 'l' :: 'l' :: r => some (Json.null, r)
            | _ => none
          else if c = 't' then
            match rest with
            | 'r' :: 'u' :: 'e' :: r => some (Json.bool true, r)
            | _ => none
          else if c = 'f' then
            match rest with
            | 'a' :: 'l' :: 's' :: 'e' :: r => some (Json.bool false, r)
            | _ => none
          else if c = quoteChar then
            match parseStringChars rest with
            | some (s, r) => some (Json.str (String.mk s), r)
            | none => none
          else if c = '[' then
            match skipWs rest with
            | ']' :: r => some (Json.arr [], r)
            | r2 =>
              match pI r2 with
              | some (items, r) => some (Json.arr items, r)
              | none => none
          else if c = lbraceChar then
            match skipWs rest with
            | [] => none
            | d :: r =>
              if d = rbraceChar then some (Json.obj [], r)
              else
                match pF (d :: r) with
                | some (fields, r2) => some (Json.obj fields, r2)
                | none => none
          else if c = '-' then
            match parseDigits rest with
            | ([], _) => none
            | (ds, r) => some (Json.num (-(digitsVal ds : Int)), r)
          else if c.isDigit then
            match parseDigits (c :: rest) with
            | (ds, r) => some (Json.num (digitsVal ds), r)
          else none,
      fun input =>
        match pV input with
        | none => none
        | some (v, rest) =>
          match skipWs rest with
          | ',' :: r =>
            match pI r with
            | some (vs, r2) => some (v :: vs, r2)
            | none => none
          | ']' :: r => some ([v], r)
          | _ => none,
      fun input =>
        match skipWs input with
        | [] => none
        | c :: rest =>
          if c = quoteChar then
            match parseStringChars rest with
            | none => none
            | some (key, r) =>
              match skipWs r with
              | ':' :: r2 =>
                match pV r2 with
                | none => none
                | some (v, r3) =>
                  match skipWs r3 with
                  | [] => none
                  | d :: r4 =>
                    if d = ',' then
                      match pF r4 with
                      | some (fs, r5) => some ((String.mk key, v) :: fs, r5)
                      | none => none
                    else if d = rbraceChar then some ([(String.mk key, v)], r4)
                    else none
              | _ => none
          else none )

/-- `serde_json::from_str` up to the value layer: parse one JSON value and
require only whitespace after it ("" parses to nothing and is an error, as in
serde_json). -/
def parseJson (s : String) : Option Json :=
  match (parsers (2 * s.length + 2)).1 s.toList with
  | some (v, rest) => if skipWs rest = [] then some v else none
  | none => none

/-- Sequencing of a fallible element decoder over a list, as serde's `Vec`
deserializer does: the first failing element fails the whole vector. -/
def mapOption {α β : Type} (f : α → Option β) : List α → Option (List β)
  | [] => some []
  | a :: l =>
    match f a with
    | none => none
    | some b =>
      match mapOption f l with
      | none => none
      | some bs => some (b :: bs)

/-- Derived `Serialize` for `TimeFrame` (field order as declared). -/
def timeFrameToJson (tf : TimeFrame) : Json :=
  Json.obj [("id", Json.num tf.id), ("start_time", Json.num tf.start_time),
            ("end_time", Json.num tf.end_time)]

/-- serde serializes `Option<T>` as `null` / the bare value. -/
def optionInstantToJson : Option Int → Json
  | none => Json.null
  | some t => Json.num t

/-- Derived `Serialize` for `Task` (field order as declared). -/
def taskToJson (t : Task) : Json :=
  Json.obj [("id", Json.num t.id), ("project", Json.str t.project),
            ("created_at", Json.num t.created_at),
            ("running_since", optionInstantToJson t.running_since),
            ("times", Json.arr (t.times.map timeFrameToJson))]

/-- `serde_json::to_vec` of the whole collection, at the value layer. -/
def tasksToJson (ts : List Task) : Json :=
  Json.arr (ts.map taskToJson)

/-- Decoding a `usize` field: a nonnegative integer. -/
def asNat : Json → Option Nat
  | Json.num n => if n < 0 then none else some n.toNat
  | _ => none

def asInstant : Json → Option Int
  | Json.num n => some n
  | _ => none

def asOptionInstant : Json → Option (Option Int)
  | Json.null => some none
  | Json.num n => some (some n)
  | _ => none

def asString : Json → Option String
  | Json.str s => some s
  | _ => none

/-- Derived `Deserialize` for `TimeFrame`: fields are found by name (input
order irrelevant, unknown fields ignored, missing fields an error, as with
serde's derive). -/
def timeFrameFromJson : Json → Option TimeFrame
  | Json.obj fields =>
    match List.lookup "id" fields, List.lookup "start_time" fields,
          List.lookup "end_time" fields with
    | some idJ, some stJ, some etJ =>
      match asNat idJ, asInstant stJ, asInstant etJ with
      | some i, some st, some et =>
          some { id := i, start_time := st, end_time := et }
      | _, _, _ => none
    | _, _, _ => none
  | _ => none

/-- Derived `Deserialize` for `Task`. -/
def taskFromJson : Json → Option Task
  | Json.obj fields =>
    match List.lookup "id" fields, List.lookup "project" fields,
          List.lookup "created_at" fields, List.lookup "running_since" fields,
          List.lookup "times" fields with
    | some idJ, some projJ, some caJ, some rsJ, some (Json.arr timesJ) =>
      match asNat idJ, asString projJ, asInstant caJ, asOptionInstant rsJ,
            mapOption timeFrameFromJson timesJ with
      | some i, some proj, some ca, some rs, some times =>
          some { id := i, project := proj, created_at := ca,
                 running_since := rs, times := times }
      | _, _, _, _, _ => none
    | _, _, _, _, _ => none
  | _ => none

/-- `Vec<Task>` deserialization at the value layer. -/
def tasksFromJson : Json → Option (List Task)
  | Json.arr items => mapOption taskFromJson items
  | _ => none

/-- The `Error` enum (lines 67-73): only read and parse failure exist — in
particular there is no index-related variant. -/
inductive DBError
  | ReadDBError
  | ParseDBError
deriving DecidableEq

/-- `serde_json::from_str::<Vec<Task>>`: the textual layer followed by the
derived collection deserializer. -/
def from_str (s : String) : Except DBError (List Task) :=
  match parseJson s with
  | none => Except.error DBError.ParseDBError
  | some j =>
    match tasksFromJson j with
    | none => Except.error DBError.ParseDBError
    | some tasks => Except.ok tasks

/-- `read_db` (lines 565-582) over an abstract file-system state: `none` is a
missing file (`ErrorKind::NotFound`, for which the source substitutes the
text "[]"), `some content` an existing file with exactly those contents.
Other I/O failures are outside the model. -/
def read_db (file : Option String) : Except DBError (List Task) :=
  let db_content :=
    match file with
    | none => "[]"
    | some content => content
  from_str db_content

/-- The read half of `update_db` (lines 584-607): the file is opened with
`create(true)`, so a missing file becomes an existing empty one, and empty
contents are replaced by "[]" before parsing. -/
def update_db_read (file : Option String) : Except DBError (List Task) :=
  let db_content :=
    match file with
    | none => ""
    | some content => content
  let db_content2 := if db_content.isEmpty then "[]" else db_content
  from_str db_content2

/-- C7 counterexample: reading an existing store file with empty contents via
`read_db` is a parse error, not the empty collection — only `NotFound` is
special-cased there, and "" is not valid JSON. -/
theorem read_db_empty_contents_error :
    read_db (some "") = Except.error DBError.ParseDBError := rfl

/-- C7 amended: a missing store yields the empty collection in both read
paths, and the read-modify-write path (`update_db`) also maps empty contents
to the empty collection, but `read_db` fails with a parse error on a store
file whose contents are empty. -/
theorem store_read_empty_handling :
    read_db none = Except.ok [] ∧
    update_db_read none = Except.ok [] ∧
    update_db_read (some "") = Except.ok [] ∧
    read_db (some "") = Except.error DBError.ParseDBError :=
  ⟨rfl, rfl, rfl, rfl⟩

theorem asNat_num (n : Nat) : asNat (Json.num (n : Int)) = some n := by
  simp only [asNat]
  rw [if_neg (by omega)]
  simp

theorem mapOption_map_of_id {α β : Type} (f : β → Option α) (g : α → β) (l : List α)
    (h : ∀ x, f (g x) = some x) : mapOption f (l.map g) = some l := by
  induction l with
  | nil => rfl
  | cons a l ih => simp [mapOption, h a, ih]

theorem timeFrame_round_trip (tf : TimeFrame) :
    timeFrameFromJson (timeFrameToJson tf) = some tf := by
  cases tf with
  | mk i st et =>
    simp [timeFrameToJson, timeFrameFromJson, asNat_num, asInstant, List.lookup]

theorem task_round_trip (t : Task) : taskFromJson (taskToJson t) = some t := by
  cases t with
  | mk i proj ca rs times =>
    have htimes : mapOption timeFrameFromJson (times.map timeFrameToJson) = some times :=
      mapOption_map_of_id timeFrameFromJson timeFrameToJson times timeFrame_round_trip
    cases rs <;>
      simp [taskToJson, taskFromJson, optionInstantToJson, asOptionInstant,
            asString, asInstant, asNat_num, htimes, List.lookup]

/-- C9: serializing any collection of tasks (any length, tasks with zero or
many TimeFrames, running or not) and deserializing the result yields a
collection equal to the original in every field — including the stored ids. -/
theorem serialization_round_trip (ts : List Task) :
    tasksFromJson (tasksToJson ts) = some ts :=
  mapOption_map_of_id taskFromJson taskToJson ts task_round_trip
